/-
Verification of the expression-evaluation and dynamical-analysis engine of
the vectorfields repository.

Embedding conventions, used throughout and noted again at each definition:

* JavaScript numbers are modelled exactly by `JSVal`: a finite rational, or
  one of the special values `Infinity`, `-Infinity`, `NaN`.  Double-precision
  rounding, overflow to infinity, and negative zero are outside the model;
  every concrete input used below stays well inside the exactly-representable
  range, and no claim depends on rounding.
* The transcendental library functions (`Math.sin`, `Math.cos`, `Math.tan`,
  `Math.exp`, `Math.sqrt` on positive arguments, `Math.pow` with non-integer
  exponent) return irrational values in general, so their finite-argument
  values are abstracted into a `JsMath` parameter; every definition is
  parametric in it and no claim depends on those values.  The sign and
  special-value behaviour (`Math.sqrt` of a negative number is `NaN`, etc.)
  is modelled concretely.
* Comparisons of `Math.hypot(u, v)` (and `Math.sqrt(u*u+v*v)`) against a
  nonnegative threshold `t` are embedded by the exactly equivalent squared
  comparison `u^2 + v^2 ⋈ t^2`; where the threshold could be negative the
  equivalent disjunction is spelled out.  The one place a magnitude's actual
  value feeds back into the computation (the Newton step rescale and the
  particle speed normalisation) uses the abstract square root.
-/
import Mathlib

namespace VectorFields

unseal Rat.add Rat.mul Rat.inv Rat.sub Rat.ofScientific

/-- Decidable equality for `Except` results, so that concrete evaluator
runs can be checked by `decide`. -/
instance {ε α : Type} [DecidableEq ε] [DecidableEq α] : DecidableEq (Except ε α)
  | .ok u, .ok v =>
      if h : u = v then .isTrue (by rw [h])
      else .isFalse (by intro hc; cases hc; exact h rfl)
  | .ok _, .error _ => .isFalse (by intro hc; cases hc)
  | .error _, .ok _ => .isFalse (by intro hc; cases hc)
  | .error e, .error f =>
      if h : e = f then .isTrue (by rw [h])
      else .isFalse (by intro hc; cases hc; exact h rfl)

/-! ### JavaScript number model -/

/-- A JavaScript number: a finite (exact rational) value or one of the
special values `Infinity`, `-Infinity`, `NaN`. -/
inductive JSVal where
  | num (q : ℚ)
  | posInf
  | negInf
  | nan
  deriving DecidableEq

/-- `Number.isFinite` / global `isFinite` on a number argument. -/
def JSVal.isFinite : JSVal → Bool
  | .num _ => true
  | _ => false

/-- Abstract finite-argument values of the double-precision math library.
`sqrtPos q` stands for `Math.sqrt(q)` for `0 ≤ q`, `rpow b e` for
`Math.pow(b, e)` with positive base and non-integer exponent, and the rest
for the corresponding `Math` functions at finite arguments.  These values
are irrational in general and no claim below depends on them. -/
structure JsMath where
  sqrtPos : ℚ → ℚ
  sin : ℚ → ℚ
  cos : ℚ → ℚ
  tan : ℚ → ℚ
  exp : ℚ → ℚ
  rpow : ℚ → ℚ → ℚ

/-- JavaScript `+` on numbers. -/
def jsAdd : JSVal → JSVal → JSVal
  | .num p, .num q => .num (p + q)
  | .nan, _ => .nan
  | _, .nan => .nan
  | .posInf, .negInf => .nan
  | .negInf, .posInf => .nan
  | .posInf, _ => .posInf
  | _, .posInf => .posInf
  | .negInf, _ => .negInf
  | _, .negInf => .negInf

/-- JavaScript unary `-` on numbers. -/
def jsNeg : JSVal → JSVal
  | .num q => .num (-q)
  | .posInf => .negInf
  | .negInf => .posInf
  | .nan => .nan

/-- JavaScript binary `-` on numbers (`x - y` agrees with `x + (-y)`). -/
def jsSub (x y : JSVal) : JSVal := jsAdd x (jsNeg y)

/-- JavaScript `*` on numbers. -/
def jsMul : JSVal → JSVal → JSVal
  | .num p, .num q => .num (p * q)
  | .nan, _ => .nan
  | _, .nan => .nan
  | .posInf, .posInf => .posInf
  | .posInf, .negInf => .negInf
  | .negInf, .posInf => .negInf
  | .negInf, .negInf => .posInf
  | .posInf, .num q => if q = 0 then .nan else if 0 < q then .posInf else .negInf
  | .num q, .posInf => if q = 0 then .nan else if 0 < q then .posInf else .negInf
  | .negInf, .num q => if q = 0 then .nan else if 0 < q then .negInf else .posInf
  | .num q, .negInf => if q = 0 then .nan else if 0 < q then .negInf else .posInf

/-- JavaScript `/` on numbers (negative zero is identified with zero). -/
def jsDiv : JSVal → JSVal → JSVal
  | .num p, .num q =>
      if q = 0 then (if p = 0 then .nan else if 0 < p then .posInf else .negInf)
      else .num (p / q)
  | .nan, _ => .nan
  | _, .nan => .nan
  | .posInf, .posInf => .nan
  | .posInf, .negInf => .nan
  | .negInf, .posInf => .nan
  | .negInf, .negInf => .nan
  | .posInf, .num q => if 0 ≤ q then .posInf else .negInf
  | .negInf, .num q => if 0 ≤ q then .negInf else .posInf
  | .num _, .posInf => .num 0
  | .num _, .negInf => .num 0

/-- `Math.pow` / the `**` semantics used for the `^` operator, following the
ECMAScript `Number::exponentiate` case analysis.  Integer exponents on
nonzero finite bases are exact; positive-base non-integer exponents go
through the abstract `rpow`. -/
def jsPow (M : JsMath) : JSVal → JSVal → JSVal
  | _, .nan => .nan
  | b, .num q =>
      if q = 0 then .num 1
      else
        match b with
        | .nan => .nan
        | .posInf => if 0 < q then .posInf else .num 0
        | .negInf =>
            if 0 < q then (if q.den = 1 ∧ q.num % 2 ≠ 0 then .negInf else .posInf)
            else .num 0
        | .num p =>
            if p = 0 then (if 0 < q then .num 0 else .posInf)
            else if q.den = 1 then .num (p ^ q.num)
            else if p < 0 then .nan
            else .num (M.rpow p q)
  | b, .posInf =>
      match b with
      | .nan => .nan
      | .posInf => .posInf
      | .negInf => .posInf
      | .num p => if 1 < |p| then .posInf else if |p| = 1 then .nan else .num 0
  | b, .negInf =>
      match b with
      | .nan => .nan
      | .posInf => .num 0
      | .negInf => .num 0
      | .num p => if 1 < |p| then .num 0 else if |p| = 1 then .nan else .posInf

/-- `Math.sqrt`: `NaN` on negative (and `NaN`, `-Infinity`) arguments. -/
def jsSqrt (M : JsMath) : JSVal → JSVal
  | .num q => if q < 0 then .nan else .num (M.sqrtPos q)
  | .posInf => .posInf
  | .negInf => .nan
  | .nan => .nan

/-- `Math.sin`: `NaN` on infinite or `NaN` arguments. -/
def jsSin (M : JsMath) : JSVal → JSVal
  | .num q => .num (M.sin q)
  | _ => .nan

/-- `Math.cos`: `NaN` on infinite or `NaN` arguments. -/
def jsCos (M : JsMath) : JSVal → JSVal
  | .num q => .num (M.cos q)
  | _ => .nan

/-- `Math.tan`: `NaN` on infinite or `NaN` arguments. -/
def jsTan (M : JsMath) : JSVal → JSVal
  | .num q => .num (M.tan q)
  | _ => .nan

/-- `Math.exp`: `exp(-Infinity) = 0`, `exp(Infinity) = Infinity`. -/
def jsExp (M : JsMath) : JSVal → JSVal
  | .num q => .num (M.exp q)
  | .posInf => .posInf
  | .negInf => .num 0
  | .nan => .nan

/-! ### Tokenizer

`createEvaluator` (and the identical in-component copies) first computes
`expr.trim().replace(/;+$/, '')` and then splits it with the global regex
`/(\d+\.?\d*|\+|-|\*|\/|\(|\)|\^|[a-zA-Z]+)/g`: maximal digit runs with an
optional decimal point, single operator or parenthesis characters, maximal
letter runs; any other character is skipped. -/

/-- A matched token: a numeric literal (already through `parseFloat`, which
is exact on `\d+\.?\d*` literals), a letter run, or a single operator or
parenthesis character. -/
inductive Tok where
  | num (q : ℚ)
  | ident (s : String)
  | plus
  | minus
  | star
  | slash
  | lparen
  | rparen
  | caret
  deriving DecidableEq

/-- Digits (most significant first) to a natural number. -/
def digitsToNat (ds : List Char) : ℕ :=
  ds.foldl (fun n c => 10 * n + (c.toNat - 48)) 0

/-- `parseFloat` on a literal matched by `\d+\.?\d*` (exact). -/
def numLit (intDs fracDs : List Char) : ℚ :=
  (digitsToNat intDs : ℚ) + (digitsToNat fracDs : ℚ) / (10 : ℚ) ^ fracDs.length

/-- One pass of the token regex.  The fuel only bounds the recursion depth;
every step consumes at least one character, so `cs.length + 1` fuel (as
supplied by `tokenize`) never runs out. -/
def tokenizeF : ℕ → List Char → List Tok
  | 0, _ => []
  | _, [] => []
  | fuel + 1, c :: cs =>
    if c.isDigit then
      let ds := List.takeWhile Char.isDigit (c :: cs)
      let r1 := List.dropWhile Char.isDigit (c :: cs)
      match r1 with
      | '.' :: cs2 =>
          let fs := List.takeWhile Char.isDigit cs2
          Tok.num (numLit ds fs) :: tokenizeF fuel (List.dropWhile Char.isDigit cs2)
      | _ => Tok.num (numLit ds []) :: tokenizeF fuel r1
    else if c.isAlpha then
      Tok.ident (String.mk (List.takeWhile Char.isAlpha (c :: cs))) ::
        tokenizeF fuel (List.dropWhile Char.isAlpha (c :: cs))
    else if c = '+' then Tok.plus :: tokenizeF fuel cs
    else if c = '-' then Tok.minus :: tokenizeF fuel cs
    else if c = '*' then Tok.star :: tokenizeF fuel cs
    else if c = '/' then Tok.slash :: tokenizeF fuel cs
    else if c = '(' then Tok.lparen :: tokenizeF fuel cs
    else if c = ')' then Tok.rparen :: tokenizeF fuel cs
    else if c = '^' then Tok.caret :: tokenizeF fuel cs
    else tokenizeF fuel cs

/-- `expr.trim().replace(/;+$/, '')` on the character list. -/
def cleanseChars (cs : List Char) : List Char :=
  let t := ((cs.dropWhile Char.isWhitespace).reverse.dropWhile Char.isWhitespace).reverse
  (t.reverse.dropWhile (fun c => c = ';')).reverse

/-- Token list of a formula string, after cleaning. -/
def tokensOf (s : String) : List Tok :=
  let cs := cleanseChars s.toList
  tokenizeF (cs.length + 1) cs

/-! ### Recursive-descent evaluator

Translation of the `parseExpression` / `parseTerm` / `parseFactor` /
`parseBase` closures.  The JavaScript code walks a `pos` index over the
token array; here each function consumes a token-list suffix and returns
the unconsumed remainder.  A thrown `Error` is an `Except.error`.

The two copies of the grammar in the repository differ in one point:
`createEvaluator` (fixed-point module) throws `'Mismatched parentheses'`
when a `)` is missing, while the rendering-layer copy silently continues;
the `strict` flag selects between them.

The fuel argument only bounds the recursion depth; each token can account
for at most four nested calls, so the `4 * tokens.length + 4` fuel supplied
by the entry points never runs out (a hypothetical exhaustion surfaces as
the artificial `EvalErr.fuel`, never as a value). -/

/-- The source text of a token, as it would appear in an error message. -/
def Tok.text : Tok → String
  | .num _ => "number"
  | .ident s => s
  | .plus => "+"
  | .minus => "-"
  | .star => "*"
  | .slash => "/"
  | .lparen => "("
  | .rparen => ")"
  | .caret => "^"

/-- A thrown evaluator error. -/
inductive EvalErr where
  /-- `Unknown token: <tok>` (reading past the end gives the JavaScript
  string `"undefined"`). -/
  | unknownToken (s : String)
  /-- `Mismatched parentheses`. -/
  | mismatched
  /-- `Unexpected token: <tok>` — leftover tokens after a full parse. -/
  | unexpectedToken
  /-- `Empty expression` (thrown by `createEvaluator` at creation time). -/
  | emptyExpr
  /-- `Expression did not evaluate to a finite number`. -/
  | nonFinite
  /-- Artificial out-of-fuel marker, unreachable for the supplied fuel. -/
  | fuel
  deriving DecidableEq

mutual

/-- `parseExpression`: a term, then `+`/`-` chains. -/
def parseExpression (M : JsMath) (strict : Bool) (x y a b : ℚ) :
    ℕ → List Tok → Except EvalErr (JSVal × List Tok)
  | 0, _ => .error .fuel
  | n + 1, ts => do
      let (l, ts1) ← parseTerm M strict x y a b n ts
      parseExprLoop M strict x y a b n l ts1

/-- The `while` loop of `parseExpression`. -/
def parseExprLoop (M : JsMath) (strict : Bool) (x y a b : ℚ) :
    ℕ → JSVal → List Tok → Except EvalErr (JSVal × List Tok)
  | 0, _, _ => .error .fuel
  | n + 1, l, .plus :: ts => do
      let (r, ts1) ← parseTerm M strict x y a b n ts
      parseExprLoop M strict x y a b n (jsAdd l r) ts1
  | n + 1, l, .minus :: ts => do
      let (r, ts1) ← parseTerm M strict x y a b n ts
      parseExprLoop M strict x y a b n (jsSub l r) ts1
  | _ + 1, l, ts => .ok (l, ts)

/-- `parseTerm`: a factor, then `*`/`/` chains. -/
def parseTerm (M : JsMath) (strict : Bool) (x y a b : ℚ) :
    ℕ → List Tok → Except EvalErr (JSVal × List Tok)
  | 0, _ => .error .fuel
  | n + 1, ts => do
      let (l, ts1) ← parseFactor M strict x y a b n ts
      parseTermLoop M strict x y a b n l ts1

/-- The `while` loop of `parseTerm`. -/
def parseTermLoop (M : JsMath) (strict : Bool) (x y a b : ℚ) :
    ℕ → JSVal → List Tok → Except EvalErr (JSVal × List Tok)
  | 0, _, _ => .error .fuel
  | n + 1, l, .star :: ts => do
      let (r, ts1) ← parseFactor M strict x y a b n ts
      parseTermLoop M strict x y a b n (jsMul l r) ts1
  | n + 1, l, .slash :: ts => do
      let (r, ts1) ← parseFactor M strict x y a b n ts
      parseTermLoop M strict x y a b n (jsDiv l r) ts1
  | _ + 1, l, ts => .ok (l, ts)

/-- `parseFactor`: a base, optionally `^` a factor (right-associative). -/
def parseFactor (M : JsMath) (strict : Bool) (x y a b : ℚ) :
    ℕ → List Tok → Except EvalErr (JSVal × List Tok)
  | 0, _ => .error .fuel
  | n + 1, ts => do
      let (l, ts1) ← parseBase M strict x y a b n ts
      match ts1 with
      | .caret :: ts2 => do
          let (r, ts3) ← parseFactor M strict x y a b n ts2
          .ok (jsPow M l r, ts3)
      | _ => .ok (l, ts1)

/-- `parseBase`: parenthesised expression, unary minus, identifier or
function application, or numeric literal.  The letter run `Infinity` is the
one identifier for which the JavaScript `isNaN` test is false, so it takes
the `parseFloat` branch and yields `Infinity`. -/
def parseBase (M : JsMath) (strict : Bool) (x y a b : ℚ) :
    ℕ → List Tok → Except EvalErr (JSVal × List Tok)
  | 0, _ => .error .fuel
  | n + 1, .lparen :: ts => do
      let (v, ts1) ← parseExpression M strict x y a b n ts
      match ts1 with
      | .rparen :: ts2 => .ok (v, ts2)
      | _ => if strict then .error .mismatched else .ok (v, ts1)
  | n + 1, .minus :: ts => do
      let (v, ts1) ← parseFactor M strict x y a b n ts
      .ok (jsNeg v, ts1)
  | _ + 1, .num q :: ts => .ok (.num q, ts)
  | n + 1, .ident s :: ts =>
      if s = "x" then .ok (.num x, ts)
      else if s = "y" then .ok (.num y, ts)
      else if s = "a" then .ok (.num a, ts)
      else if s = "b" then .ok (.num b, ts)
      else if s = "sin" then do
        let (v, ts1) ← parseFactor M strict x y a b n ts
        .ok (jsSin M v, ts1)
      else if s = "cos" then do
        let (v, ts1) ← parseFactor M strict x y a b n ts
        .ok (jsCos M v, ts1)
      else if s = "tan" then do
        let (v, ts1) ← parseFactor M strict x y a b n ts
        .ok (jsTan M v, ts1)
      else if s = "exp" then do
        let (v, ts1) ← parseFactor M strict x y a b n ts
        .ok (jsExp M v, ts1)
      else if s = "sqrt" then do
        let (v, ts1) ← parseFactor M strict x y a b n ts
        .ok (jsSqrt M v, ts1)
      else if s = "Infinity" then .ok (.posInf, ts)
      else .error (.unknownToken s)
  | _ + 1, [] => .error (.unknownToken "undefined")
  | _ + 1, t :: _ => .error (.unknownToken t.text)

end

/-- Creation step of `createEvaluator`: clean the formula, reject an empty
result (`Empty expression`), tokenize.  The returned token list is the
state captured by the evaluator closure. -/
def createEvaluator (s : String) : Except EvalErr (List Tok) :=
  let cs := cleanseChars s.toList
  if cs = [] then .error .emptyExpr
  else .ok (tokenizeF (cs.length + 1) cs)

/-- Calling the closure returned by `createEvaluator` (fixed-point module
variant): full parse, reject leftover tokens (`Unexpected token`), reject a
non-finite result (`Expression did not evaluate to a finite number`).
A returned `.ok` value is always finite. -/
def coreEval (M : JsMath) (ts : List Tok) (x y a b : ℚ) : Except EvalErr JSVal := do
  let (v, rest) ← parseExpression M true x y a b (4 * ts.length + 4) ts
  match rest with
  | _ :: _ => .error .unexpectedToken
  | [] => if v.isFinite then .ok v else .error .nonFinite

/-- `createEvaluator` composed with a call of the returned closure: the
"parse then evaluate at a point" pipeline of the fixed-point module. -/
def evalStr (M : JsMath) (s : String) (x y a b : ℚ) : Except EvalErr JSVal :=
  match createEvaluator s with
  | .error e => .error e
  | .ok ts => coreEval M ts x y a b

/-- Rendering-layer `evaluateExpression` (the copy inside
`VectorFieldVisualization`): any thrown error — empty expression, unknown
token, or any other parse failure — is caught and turned into `0`, a
non-finite result is turned into `0`, and there is no leftover-token or
missing-parenthesis check.  The memo cache is not modelled: it only
replays finite values previously returned for the same rounded key, so it
does not affect any property stated below. -/
def vfvEval (M : JsMath) (s : String) (x y a b : ℚ) : JSVal :=
  let cs := cleanseChars s.toList
  if cs = [] then .num 0
  else
    let ts := tokenizeF (cs.length + 1) cs
    match parseExpression M false x y a b (4 * ts.length + 4) ts with
    | .error _ => .num 0
    | .ok (v, _) => if v.isFinite then v else .num 0

/-! ### Fixed-point analysis engine

Translation of the fixed-point module of the repository.  The vector field
components are abstracted as functions `(x, y, a, b) ↦` JavaScript number;
the module's own code handles non-finite field values explicitly, and the
`isFinite` branches below are its `Number.isFinite` checks. -/

/-- A vector-field component: the evaluator function for one formula. -/
abbrev Field := ℚ → ℚ → ℚ → ℚ → JSVal

/-- `GRID_SIZE` constant of the fixed-point module. -/
def GRID_SIZE : ℕ := 25

/-- `MAX_SEEDS` constant of the fixed-point module. -/
def MAX_SEEDS : ℕ := 200

/-- `MAX_REFINEMENT_STEPS` constant of the fixed-point module. -/
def MAX_REFINEMENT_STEPS : ℕ := 12

/-- The module's `clamp(value, min, max) = Math.max(min, Math.min(max, value))`. -/
def clamp (value lo hi : ℚ) : ℚ := max lo (min hi value)

/-- The 2×2 numeric Jacobian `{a, b, c, d}`. -/
structure Jacobian where
  a : ℚ
  b : ℚ
  c : ℚ
  d : ℚ
  deriving DecidableEq

/-- The domain rectangle handed to `refineSeed`. -/
structure Bounds where
  xMin : ℚ
  xMax : ℚ
  yMin : ℚ
  yMax : ℚ
  deriving DecidableEq

/-- `computeJacobian`: central differences with step `h`, each difference
quotient computed in JavaScript arithmetic; `null` (here `none`) when any
of the four partials is non-finite. -/
def computeJacobian (fx fy : Field) (x y a b h : ℚ) : Option Jacobian :=
  let dfdx := jsDiv (jsSub (fx (x + h) y a b) (fx (x - h) y a b)) (.num (2 * h))
  let dfdy := jsDiv (jsSub (fx x (y + h) a b) (fx x (y - h) a b)) (.num (2 * h))
  let dgdx := jsDiv (jsSub (fy (x + h) y a b) (fy (x - h) y a b)) (.num (2 * h))
  let dgdy := jsDiv (jsSub (fy x (y + h) a b) (fy x (y - h) a b)) (.num (2 * h))
  match dfdx, dfdy, dgdx, dgdy with
  | .num p, .num q, .num r, .num s => some ⟨p, q, r, s⟩
  | _, _, _, _ => none

/-- One eigenvalue as `{re, im}`. -/
structure Eigen where
  re : ℚ
  im : ℚ
  deriving DecidableEq

/-- `computeEigenvalues`: trace, determinant and discriminant of the 2×2
Jacobian, then the closed-form pair.  `sq` stands for `Math.sqrt` on the
nonnegative argument it receives.  Over exact rationals the
`Number.isFinite` checks on `trace`, `det`, `disc` always pass. -/
def computeEigenvalues (sq : ℚ → ℚ) : Option Jacobian → Option (Eigen × Eigen)
  | none => none
  | some J =>
    let trace := J.a + J.d
    let det := J.a * J.d - J.b * J.c
    let disc := trace * trace - 4 * det
    if 0 ≤ disc then
      some (⟨(trace + sq disc) / 2, 0⟩, ⟨(trace - sq disc) / 2, 0⟩)
    else
      some (⟨trace / 2, sq (-disc) / 2⟩, ⟨trace / 2, -(sq (-disc) / 2)⟩)

/-- `classifyFixedPoint`: the stability table of the fixed-point module,
with `eps = 1e-6`.  A missing Jacobian or eigenvalue input gives
`indeterminate`; over exact rationals the recomputed determinant is always
finite, so its `Number.isFinite` guard always passes. -/
def classifyFixedPoint : Option Jacobian → Option (Eigen × Eigen) → String
  | none, _ => "indeterminate"
  | some _, none => "indeterminate"
  | some J, some (l1, l2) =>
    let det := J.a * J.d - J.b * J.c
    let eps : ℚ := 1 / 1000000
    if det < -eps then "saddle (unstable)"
    else if eps < |l1.im| then
      if l1.re < -eps then "stable spiral"
      else if eps < l1.re then "unstable spiral"
      else "center"
    else if l1.re < -eps ∧ l2.re < -eps then "stable node"
    else if eps < l1.re ∧ eps < l2.re then "unstable node"
    else if |l1.re| ≤ eps ∧ |l2.re| ≤ eps then "degenerate"
    else "indeterminate"

/-- The loop body of `refineSeed`, with the per-call constants (`range`,
`maxStep`) passed in; the fuel is `MAX_REFINEMENT_STEPS`.

Embedding of magnitude comparisons (see the header note): the source's
`Math.hypot(fxv, fyv) < tol` is `fxv² + fyv² < tolSq` with `tolSq = tol²`
(equivalent because in the module `tol > 0`); `stepSize > maxStep` with
`stepSize = Math.hypot(dxStep, dyStep) ≥ 0` is `maxStep < 0 ∨
maxStep² < stepSq`, which is equivalent for every sign of `maxStep`.  The
rescale factor `maxStep / stepSize` uses the abstract square root `sq`
applied to `stepSq`.  Over exact rationals the `Number.isFinite` checks on
`det`, `dxStep`, `dyStep` always pass. -/
def refineSeedLoop (fx fy : Field) (a b : ℚ) (bounds : Bounds) (h tolSq : ℚ)
    (sq : ℚ → ℚ) (range maxStep : ℚ) : ℕ → ℚ → ℚ → Option (ℚ × ℚ)
  | 0, _, _ => none
  | n + 1, x, y =>
    match fx x y a b, fy x y a b with
    | .num fxv, .num fyv =>
      if fxv ^ 2 + fyv ^ 2 < tolSq then some (x, y)
      else
        match computeJacobian fx fy x y a b h with
        | none => none
        | some J =>
          let det := J.a * J.d - J.b * J.c
          if |det| < 1 / 10000000000 then none
          else
            let dxStep := -(J.d * fxv - J.b * fyv) / det
            let dyStep := -(-J.c * fxv + J.a * fyv) / det
            let stepSq := dxStep ^ 2 + dyStep ^ 2
            let rescale := maxStep < 0 ∨ maxStep ^ 2 < stepSq
            let dxStep1 := if rescale then dxStep * (maxStep / sq stepSq) else dxStep
            let dyStep1 := if rescale then dyStep * (maxStep / sq stepSq) else dyStep
            let x1 := x + dxStep1
            let y1 := y + dyStep1
            if x1 < bounds.xMin - range ∨ x1 > bounds.xMax + range ∨
                y1 < bounds.yMin - range ∨ y1 > bounds.yMax + range then none
            else refineSeedLoop fx fy a b bounds h tolSq sq range maxStep n x1 y1
    | _, _ => none

/-- `refineSeed`: Newton–Raphson refinement of one candidate seed, at most
`MAX_REFINEMENT_STEPS` iterations; `none` is a failed refinement (the JS
`null`), including the fall-through after the final iteration. -/
def refineSeed (seed : ℚ × ℚ) (fx fy : Field) (a b : ℚ) (bounds : Bounds)
    (h tolSq : ℚ) (sq : ℚ → ℚ) : Option (ℚ × ℚ) :=
  let range := max (bounds.xMax - bounds.xMin) (bounds.yMax - bounds.yMin)
  let maxStep := range * (1 / 4)
  refineSeedLoop fx fy a b bounds h tolSq sq range maxStep MAX_REFINEMENT_STEPS seed.1 seed.2

/-- A grid sample `{x, y, mag}`; `magSq` is the squared magnitude
`fxv² + fyv²` (the source stores `mag = Math.hypot(fxv, fyv)`; every use —
the running maximum, the threshold test and the ascending sort — is
invariant under the strictly monotone squaring of nonnegatives, so the
squared value is an exact embedding). -/
structure Seed where
  x : ℚ
  y : ℚ
  magSq : ℚ
  deriving DecidableEq

/-- A reported fixed point. -/
structure FixedPoint where
  x : ℚ
  y : ℚ
  jacobian : Option Jacobian
  eigenvalues : Option (Eigen × Eigen)
  stability : String
  deriving DecidableEq

/-- The result object of `computeFixedPoints` (fields that a given return
path does not mention are `none`). -/
structure FpAnalysis where
  points : List FixedPoint
  error : Option String
  note : Option String
  gridSize : Option ℕ
  candidateCount : Option ℕ
  deriving DecidableEq

/-- The grid-sampling double loop of `computeFixedPoints`: the 25×25 grid
`(xMin + (i/24)·rangeX, yMin + (j/24)·rangeY)`, skipping nodes where either
component is non-finite (`i` outer, `j` inner, as in the source). -/
def gridSeeds (fx fy : Field) (xMin yMin rangeX rangeY a b : ℚ) : List Seed :=
  (List.range GRID_SIZE).flatMap fun (i : ℕ) =>
    (List.range GRID_SIZE).filterMap fun (j : ℕ) =>
      let x := xMin + ((i : ℚ) / ((GRID_SIZE : ℚ) - 1)) * rangeX
      let y := yMin + ((j : ℚ) / ((GRID_SIZE : ℚ) - 1)) * rangeY
      match fx x y a b, fy x y a b with
      | .num fxv, .num fyv => some ⟨x, y, fxv ^ 2 + fyv ^ 2⟩
      | _, _ => none

/-- The running maximum magnitude over the finite grid samples (squared;
the JS `maxMag` starts at `0` and is the maximum of nonnegative
magnitudes, so squaring commutes with the running maximum). -/
def maxMagSqOf (seeds : List Seed) : ℚ :=
  seeds.foldl (fun m s => max m s.magSq) 0

/-- Candidate selection of `computeFixedPoints`: threshold
`max(1e-3, maxMag * 0.02)` (squared: `max(1e-6, maxMagSq / 2500)`), filter,
stable ascending sort by magnitude, first `MAX_SEEDS`. -/
def candidatesOf (seeds : List Seed) (maxMagSq : ℚ) : List Seed :=
  let thresholdSq := max (1 / 1000000) (maxMagSq * (1 / 2500))
  ((seeds.filter fun s => s.magSq ≤ thresholdSq).mergeSort
      fun s t => s.magSq ≤ t.magSq).take MAX_SEEDS

/-- The refinement-and-deduplication fold of `computeFixedPoints` over the
candidate seeds.  A refined point is dropped when refinement fails, when it
lands outside the original domain, or when it is within `mergeTol`
(squared comparison; `mergeTol > 0`) of an already-accepted point;
otherwise it is appended with its Jacobian, eigenvalues and label. -/
def refineFold (sq : ℚ → ℚ) (fx fy : Field) (a b : ℚ) (bounds : Bounds)
    (h tolSq mergeTolSq : ℚ) : List Seed → List FixedPoint → List FixedPoint
  | [], pts => pts
  | seed :: rest, pts =>
    let pts1 :=
      match refineSeed (seed.x, seed.y) fx fy a b bounds h tolSq sq with
      | none => pts
      | some r =>
        if r.1 < bounds.xMin ∨ r.1 > bounds.xMax ∨ r.2 < bounds.yMin ∨ r.2 > bounds.yMax then
          pts
        else if pts.any fun p => (p.x - r.1) ^ 2 + (p.y - r.2) ^ 2 ≤ mergeTolSq then
          pts
        else
          let jac := computeJacobian fx fy r.1 r.2 a b h
          let eig := computeEigenvalues sq jac
          pts ++ [⟨r.1, r.2, jac, eig, classifyFixedPoint jac eig⟩]
    refineFold sq fx fy a b bounds h tolSq mergeTolSq rest pts1

/-- `computeFixedPoints` over already-created evaluator functions.  The
`try { createEvaluator(dx); createEvaluator(dy) }` stage, whose only
failure is a creation-time error returned as `{points: [], error}`, is the
evaluator pipeline verified separately; this definition is the body from
the bounds check on.  Constants in squared embedding:
`maxMag < 1e-8 ↔ maxMagSq < 1e-16`,
`mergeTol = max(1e-4, range*0.01) ↔ mergeTolSq = max(1e-8, range²*1e-4)`,
`tol = clamp(maxMag*1e-4, 1e-6, 1e-2) ↔ tolSq = clamp(maxMagSq*1e-8, 1e-12, 1e-4)`
(`h` is a plain length, not a magnitude, and is kept as is). -/
def computeFixedPoints (sq : ℚ → ℚ) (fx fy : Field) (xMin xMax yMin yMax a b : ℚ) :
    FpAnalysis :=
  let rangeX := xMax - xMin
  let rangeY := yMax - yMin
  if ¬ 0 < rangeX ∨ ¬ 0 < rangeY then
    ⟨[], some "Invalid bounds.", none, none, none⟩
  else
    let seeds := gridSeeds fx fy xMin yMin rangeX rangeY a b
    let maxMagSq := maxMagSqOf seeds
    if maxMagSq < 1 / 10 ^ 16 then
      ⟨[], none, some "Vector field is near zero across the bounds; fixed points are not isolated.",
        none, none⟩
    else
      let candidateSeeds := candidatesOf seeds maxMagSq
      if candidateSeeds = [] then
        ⟨[], none, some "No candidate fixed points found in the current bounds.", none, none⟩
      else
        let range := max rangeX rangeY
        let mergeTolSq := max (1 / 10 ^ 8) (range ^ 2 * (1 / 10 ^ 4))
        let h := max (1 / 10 ^ 4) (range * (1 / 10 ^ 4))
        let tolSq := clamp (maxMagSq * (1 / 10 ^ 8)) (1 / 10 ^ 12) (1 / 10 ^ 4)
        let points :=
          refineFold sq fx fy a b ⟨xMin, xMax, yMin, yMax⟩ h tolSq mergeTolSq candidateSeeds []
        ⟨points, none,
          if points = [] then some "No fixed points found in the current bounds." else none,
          some GRID_SIZE, some candidateSeeds.length⟩

/-! ### Particle integration (speed-normalized) -/

/-- One particle slot `[x, y, age, mag]` of the particle buffer. -/
structure Particle where
  x : ℚ
  y : ℚ
  age : ℚ
  mag : ℚ
  deriving DecidableEq

/-- One iteration of the `updateParticles` loop for one particle.  `r1`,
`r2` are the `Math.random()` draws consumed if this particle respawns.
The returned flag records whether the finite branch ran (the branch that
sets `successfulEvaluation = true`); the non-finite branch copies the
particle unchanged.  `sq (vx² + vy²)` is the source's
`Math.sqrt(vx*vx + vy*vy)`. -/
def updateParticleF (sq : ℚ → ℚ) (fx fy : Field) (a b dt xMin xMax yMin yMax r1 r2 : ℚ)
    (p : Particle) : Particle × Bool :=
  match fx p.x p.y a b, fy p.x p.y a b with
  | .num vx, .num vy =>
    let magnitude := sq (vx ^ 2 + vy ^ 2)
    let scaleFactor := 2 / (1 + magnitude)
    let nx := p.x + vx * scaleFactor * dt
    let ny := p.y + vy * scaleFactor * dt
    if 300 < p.age ∨ nx < xMin ∨ nx > xMax ∨ ny < yMin ∨ ny > yMax then
      (⟨xMin + r1 * (xMax - xMin), yMin + r2 * (yMax - yMin), 0, 0⟩, true)
    else
      (⟨nx, ny, p.age + 1, magnitude⟩, true)
  | _, _ => (p, false)

/-- `updateParticles` over a particle list, each particle paired with the
random draws it would consume; returns the new buffer and
`successfulEvaluation` (initially `false`, set by any finite evaluation). -/
def updateParticles (sq : ℚ → ℚ) (fx fy : Field) (a b dt xMin xMax yMin yMax : ℚ)
    (prs : List (Particle × (ℚ × ℚ))) : List Particle × Bool :=
  prs.foldl
    (fun acc pr =>
      let st := updateParticleF sq fx fy a b dt xMin xMax yMin yMax pr.2.1 pr.2.2 pr.1
      (acc.1 ++ [st.1], acc.2 || st.2))
    ([], false)

/-- The rendering-layer evaluator of a fixed formula, as a vector-field
component. -/
def vfvField (M : JsMath) (s : String) : Field :=
  fun x y a b => vfvEval M s x y a b

/-! ### String-level locator with exception semantics

`computeFixedPoints` in the source takes the two formula strings, creates
the evaluator closures inside its only `try/catch`, and from then on calls
them unguarded: a closure throw (the evaluators throw on any non-finite
result) propagates out of the grid loop, the Newton refinement and the
Jacobian computation, and escapes `computeFixedPoints` entirely.  The
definitions below re-translate the same source lines with the closures'
actual `Except`-valued type, a thrown error being an `Except.error` that
short-circuits the rest of the computation.  The `Field`-parametric
definitions above describe exactly the runs in which no call throws. -/

/-- The `message` of a thrown evaluator error, as read by
`catch (error) { ... error.message ... }`.  (The fuel marker is an
artifact of the embedding and never arises for the supplied fuel.) -/
def EvalErr.message : EvalErr → String
  | .unknownToken s => "Unknown token: " ++ s
  | .mismatched => "Mismatched parentheses"
  | .unexpectedToken => "Unexpected token"
  | .emptyExpr => "Empty expression"
  | .nonFinite => "Expression did not evaluate to a finite number"
  | .fuel => "fuel exhausted"

/-- A vector-field component backed by a `createEvaluator` closure: a call
returns a number or throws. -/
abbrev EField := ℚ → ℚ → ℚ → ℚ → Except EvalErr JSVal

/-- `computeJacobian` with throwing evaluators: the eight samples are
taken in the source's order and any throw propagates; the finiteness
check on the four difference quotients is unchanged. -/
def computeJacobianE (fx fy : EField) (x y a b h : ℚ) : Except EvalErr (Option Jacobian) := do
  let fxp ← fx (x + h) y a b
  let fxm ← fx (x - h) y a b
  let fyp ← fx x (y + h) a b
  let fym ← fx x (y - h) a b
  let gxp ← fy (x + h) y a b
  let gxm ← fy (x - h) y a b
  let gyp ← fy x (y + h) a b
  let gym ← fy x (y - h) a b
  let dfdx := jsDiv (jsSub fxp fxm) (.num (2 * h))
  let dfdy := jsDiv (jsSub fyp fym) (.num (2 * h))
  let dgdx := jsDiv (jsSub gxp gxm) (.num (2 * h))
  let dgdy := jsDiv (jsSub gyp gym) (.num (2 * h))
  match dfdx, dfdy, dgdx, dgdy with
  | .num p, .num q, .num r, .num s => .ok (some ⟨p, q, r, s⟩)
  | _, _, _, _ => .ok none

/-- The `refineSeed` loop with throwing evaluators (same embedding of the
magnitude comparisons as `refineSeedLoop`).  The non-finite skip branch is
kept from the source even though a closure never returns a non-finite
value — it throws instead. -/
def refineSeedLoopE (fx fy : EField) (a b : ℚ) (bounds : Bounds) (h tolSq : ℚ)
    (sq : ℚ → ℚ) (range maxStep : ℚ) : ℕ → ℚ → ℚ → Except EvalErr (Option (ℚ × ℚ))
  | 0, _, _ => .ok none
  | n + 1, x, y => do
    let fxw ← fx x y a b
    let fyw ← fy x y a b
    match fxw, fyw with
    | .num fxv, .num fyv =>
      if fxv ^ 2 + fyv ^ 2 < tolSq then .ok (some (x, y))
      else do
        let jac ← computeJacobianE fx fy x y a b h
        match jac with
        | none => .ok none
        | some J =>
          let det := J.a * J.d - J.b * J.c
          if |det| < 1 / 10000000000 then .ok none
          else
            let dxStep := -(J.d * fxv - J.b * fyv) / det
            let dyStep := -(-J.c * fxv + J.a * fyv) / det
            let stepSq := dxStep ^ 2 + dyStep ^ 2
            let rescale := maxStep < 0 ∨ maxStep ^ 2 < stepSq
            let dxStep1 := if rescale then dxStep * (maxStep / sq stepSq) else dxStep
            let dyStep1 := if rescale then dyStep * (maxStep / sq stepSq) else dyStep
            let x1 := x + dxStep1
            let y1 := y + dyStep1
            if x1 < bounds.xMin - range ∨ x1 > bounds.xMax + range ∨
                y1 < bounds.yMin - range ∨ y1 > bounds.yMax + range then .ok none
            else refineSeedLoopE fx fy a b bounds h tolSq sq range maxStep n x1 y1
    | _, _ => .ok none

/-- `refineSeed` with throwing evaluators. -/
def refineSeedE (seed : ℚ × ℚ) (fx fy : EField) (a b : ℚ) (bounds : Bounds)
    (h tolSq : ℚ) (sq : ℚ → ℚ) : Except EvalErr (Option (ℚ × ℚ)) :=
  let range := max (bounds.xMax - bounds.xMin) (bounds.yMax - bounds.yMin)
  let maxStep := range * (1 / 4)
  refineSeedLoopE fx fy a b bounds h tolSq sq range maxStep MAX_REFINEMENT_STEPS seed.1 seed.2

/-- The refinement-and-deduplication `forEach` with throwing evaluators:
a throw inside `refineSeed` or the per-point `computeJacobian` escapes the
whole fold. -/
def refineFoldE (sq : ℚ → ℚ) (fx fy : EField) (a b : ℚ) (bounds : Bounds)
    (h tolSq mergeTolSq : ℚ) : List Seed → List FixedPoint →
    Except EvalErr (List FixedPoint)
  | [], pts => .ok pts
  | seed :: rest, pts => do
    let refined ← refineSeedE (seed.x, seed.y) fx fy a b bounds h tolSq sq
    match refined with
    | none => refineFoldE sq fx fy a b bounds h tolSq mergeTolSq rest pts
    | some r =>
      if r.1 < bounds.xMin ∨ r.1 > bounds.xMax ∨ r.2 < bounds.yMin ∨ r.2 > bounds.yMax then
        refineFoldE sq fx fy a b bounds h tolSq mergeTolSq rest pts
      else if pts.any fun p => (p.x - r.1) ^ 2 + (p.y - r.2) ^ 2 ≤ mergeTolSq then
        refineFoldE sq fx fy a b bounds h tolSq mergeTolSq rest pts
      else do
        let jac ← computeJacobianE fx fy r.1 r.2 a b h
        let eig := computeEigenvalues sq jac
        refineFoldE sq fx fy a b bounds h tolSq mergeTolSq rest
          (pts ++ [⟨r.1, r.2, jac, eig, classifyFixedPoint jac eig⟩])

/-- The grid-sampling double loop with throwing evaluators (`i` outer,
`j` inner, `fx` before `fy` at each node).  The `continue` on a
non-finite sample is kept from the source (line 857) although it is dead
for closure-backed fields: the closure throws rather than returning a
non-finite number. -/
def gridSeedsE (fx fy : EField) (xMin yMin rangeX rangeY a b : ℚ) :
    Except EvalErr (List Seed) :=
  (List.range GRID_SIZE).foldlM
    (fun acc (i : ℕ) =>
      (List.range GRID_SIZE).foldlM
        (fun acc2 (j : ℕ) => do
          let x := xMin + ((i : ℚ) / ((GRID_SIZE : ℚ) - 1)) * rangeX
          let y := yMin + ((j : ℚ) / ((GRID_SIZE : ℚ) - 1)) * rangeY
          let fxw ← fx x y a b
          let fyw ← fy x y a b
          match fxw, fyw with
          | .num fxv, .num fyv => .ok (acc2 ++ [⟨x, y, fxv ^ 2 + fyv ^ 2⟩])
          | _, _ => .ok acc2)
        acc)
    []

/-- `computeFixedPoints` on the formula strings, with the source's actual
exception flow: only the two `createEvaluator` calls are inside
`try/catch` (a creation error becomes `{points: [], error:
error.message}`); every later closure call is unguarded, so a thrown
error propagates out of the whole function (`Except.error`). -/
def computeFixedPointsStr (M : JsMath) (sq : ℚ → ℚ) (dxs dys : String)
    (xMin xMax yMin yMax a b : ℚ) : Except EvalErr FpAnalysis :=
  match createEvaluator dxs with
  | .error e => .ok ⟨[], some e.message, none, none, none⟩
  | .ok tsx =>
    match createEvaluator dys with
    | .error e => .ok ⟨[], some e.message, none, none, none⟩
    | .ok tsy =>
      let fx : EField := fun x y a2 b2 => coreEval M tsx x y a2 b2
      let fy : EField := fun x y a2 b2 => coreEval M tsy x y a2 b2
      let rangeX := xMax - xMin
      let rangeY := yMax - yMin
      if ¬ 0 < rangeX ∨ ¬ 0 < rangeY then
        .ok ⟨[], some "Invalid bounds.", none, none, none⟩
      else do
        let seeds ← gridSeedsE fx fy xMin yMin rangeX rangeY a b
        let maxMagSq := maxMagSqOf seeds
        if maxMagSq < 1 / 10 ^ 16 then
          .ok ⟨[], none,
            some "Vector field is near zero across the bounds; fixed points are not isolated.",
            none, none⟩
        else
          let candidateSeeds := candidatesOf seeds maxMagSq
          if candidateSeeds = [] then
            .ok ⟨[], none, some "No candidate fixed points found in the current bounds.",
              none, none⟩
          else
            let range := max rangeX rangeY
            let mergeTolSq := max (1 / 10 ^ 8) (range ^ 2 * (1 / 10 ^ 4))
            let h := max (1 / 10 ^ 4) (range * (1 / 10 ^ 4))
            let tolSq := clamp (maxMagSq * (1 / 10 ^ 8)) (1 / 10 ^ 12) (1 / 10 ^ 4)
            do
              let points ← refineFoldE sq fx fy a b ⟨xMin, xMax, yMin, yMax⟩ h tolSq
                mergeTolSq candidateSeeds []
              .ok ⟨points, none,
                if points = [] then some "No fixed points found in the current bounds."
                else none,
                some GRID_SIZE, some candidateSeeds.length⟩

/-! ### Specification-side definitions

Each of the following is transcribed from the wording of a claim (not from
the source); the theorems below compare them with the source translations
above. -/

/-- A concrete instantiation of the abstract math library, used only to
state closed evaluations; no branch exercised by those evaluations
consults its fields. -/
def mathLib0 : JsMath :=
  ⟨fun _ => 0, fun _ => 0, fun _ => 0, fun _ => 0, fun _ => 0, fun _ _ => 0⟩

/-- Claim C1's classification table as stated: a complex pair — nonzero
imaginary part — is labelled by the sign of its real part against the
`1e-6` band; only genuinely real pairs reach the node/degenerate rows. -/
def specClassifyC1Claim : Option Jacobian → Option (Eigen × Eigen) → String
  | none, _ => "indeterminate"
  | some _, none => "indeterminate"
  | some J, some (l1, l2) =>
    let det := J.a * J.d - J.b * J.c
    let eps : ℚ := 1 / 1000000
    if det < -eps then "saddle (unstable)"
    else if l1.im ≠ 0 then
      if l1.re < -eps then "stable spiral"
      else if eps < l1.re then "unstable spiral"
      else "center"
    else if l1.re < -eps ∧ l2.re < -eps then "stable node"
    else if eps < l1.re ∧ eps < l2.re then "unstable node"
    else if |l1.re| ≤ eps ∧ |l2.re| ≤ eps then "degenerate"
    else "indeterminate"

/-- Claim C1's table as amended: the complex-pair rows apply only when the
imaginary part exceeds `1e-6` in absolute value; a conjugate pair with
`|im| ≤ 1e-6` falls through to the real-eigenvalue rows (where both real
parts coincide with `trace/2`). -/
def specClassifyC1Amended : Option Jacobian → Option (Eigen × Eigen) → String
  | none, _ => "indeterminate"
  | some _, none => "indeterminate"
  | some J, some (l1, l2) =>
    let det := J.a * J.d - J.b * J.c
    let eps : ℚ := 1 / 1000000
    if det < -eps then "saddle (unstable)"
    else if eps < |l1.im| then
      if l1.re < -eps then "stable spiral"
      else if eps < l1.re then "unstable spiral"
      else "center"
    else if l1.re < -eps ∧ l2.re < -eps then "stable node"
    else if eps < l1.re ∧ eps < l2.re then "unstable node"
    else if |l1.re| ≤ eps ∧ |l2.re| ≤ eps then "degenerate"
    else "indeterminate"

/-- The Jacobian of claim C1's counterexample: trace `-1`, determinant
`1/4 + t²/4` with `t = 1/2000000`, so the discriminant is `-t²` and the
eigenvalues are the conjugate pair `-1/2 ± i·t/2` with
`0 < t/2 = 2.5e-7 ≤ 1e-6`. -/
def jacC1 : Jacobian := ⟨-1/2, 1/4000000, -1/4000000, -1/2⟩

/-- The exact square root at the single argument where the counterexample's
eigenvalue computation consults it: `√(1/4000000000000) = 1/2000000`. -/
def sqC1 : ℚ → ℚ := fun q => if q = 1 / 4000000000000 then 1 / 2000000 else 0

/-- Claim C2's Newton–Raphson recipe, transcribed from its wording: at
most 12 iterations; accept when `|F| <` the tolerance
`clamp(maxMagnitude·1e-4, 1e-6, 1e-2)` (squared embedding as elsewhere);
fail when the Jacobian is unavailable or `|det J| < 1e-10`; solve
`J·Δ = -F` by Cramer's rule; rescale a step longer than
`0.25 · domainSpan` down to that cap; fail early when the iterate moves
farther than one domain-span outside the original bounds.  The claim
presumes finite field evaluations; a non-finite one fails the candidate,
as in the source. -/
def specNewtonC2 (fx fy : Field) (a b : ℚ) (bounds : Bounds) (h maxMagSq : ℚ)
    (sq : ℚ → ℚ) : ℕ → ℚ → ℚ → Option (ℚ × ℚ)
  | 0, _, _ => none
  | n + 1, x, y =>
    let tolSq := clamp (maxMagSq * (1 / 10 ^ 8)) (1 / 10 ^ 12) (1 / 10 ^ 4)
    let domainSpan := max (bounds.xMax - bounds.xMin) (bounds.yMax - bounds.yMin)
    let cap := domainSpan * (1 / 4)
    match fx x y a b, fy x y a b with
    | .num fxv, .num fyv =>
      if fxv ^ 2 + fyv ^ 2 < tolSq then some (x, y)
      else
        match computeJacobian fx fy x y a b h with
        | none => none
        | some J =>
          let det := J.a * J.d - J.b * J.c
          if |det| < 1 / 10000000000 then none
          else
            let dx0 := (J.b * fyv - J.d * fxv) / det
            let dy0 := (J.c * fxv - J.a * fyv) / det
            let lenSq := dx0 ^ 2 + dy0 ^ 2
            let long := cap < 0 ∨ cap ^ 2 < lenSq
            let dx1 := if long then dx0 * (cap / sq lenSq) else dx0
            let dy1 := if long then dy0 * (cap / sq lenSq) else dy0
            let x1 := x + dx1
            let y1 := y + dy1
            if x1 < bounds.xMin - domainSpan ∨ x1 > bounds.xMax + domainSpan ∨
                y1 < bounds.yMin - domainSpan ∨ y1 > bounds.yMax + domainSpan then none
            else specNewtonC2 fx fy a b bounds h maxMagSq sq n x1 y1
    | _, _ => none

/-- Claim C5's grid: 25×25 nodes `(xMin + i·(xMax-xMin)/24,
yMin + j·(yMax-yMin)/24)` spanning the domain inclusive of its edges,
keeping the finite nodes with their (squared) magnitudes. -/
def specGridC5 (fx fy : Field) (xMin xMax yMin yMax a b : ℚ) : List Seed :=
  (List.range 25).flatMap fun (i : ℕ) =>
    (List.range 25).filterMap fun (j : ℕ) =>
      let x := xMin + (i : ℚ) * (xMax - xMin) / 24
      let y := yMin + (j : ℚ) * (yMax - yMin) / 24
      match fx x y a b, fy x y a b with
      | .num fxv, .num fyv => some ⟨x, y, fxv ^ 2 + fyv ^ 2⟩
      | _, _ => none

/-! ### Helper lemmas -/

/-- The running maximum over the grid samples is bounded by any bound on
the individual (squared) magnitudes. -/
theorem maxMagSqOf_le {l : List Seed} {v : ℚ} (h0 : 0 ≤ v) (h : ∀ s ∈ l, s.magSq ≤ v) :
    maxMagSqOf l ≤ v := by
  have aux : ∀ (t : List Seed) (acc : ℚ), acc ≤ v → (∀ s ∈ t, s.magSq ≤ v) →
      t.foldl (fun m s => max m s.magSq) acc ≤ v := by
    intro t
    induction t with
    | nil => intro acc hacc _; exact hacc
    | cons s rest IH =>
      intro acc hacc ht
      simp only [List.foldl_cons]
      exact IH _ (max_le hacc (ht s (List.mem_cons_self s rest)))
        fun u hu => ht u (List.mem_cons_of_mem s hu)
  exact aux l 0 h0 h

/-- Any sample's (squared) magnitude is below the running maximum. -/
theorem le_maxMagSqOf {l : List Seed} {s : Seed} (hs : s ∈ l) : s.magSq ≤ maxMagSqOf l := by
  have aux : ∀ (t : List Seed) (acc : ℚ), (acc ≤ t.foldl (fun m u => max m u.magSq) acc) ∧
      (∀ u ∈ t, u.magSq ≤ t.foldl (fun m w => max m w.magSq) acc) := by
    intro t
    induction t with
    | nil => intro acc; exact ⟨le_refl acc, by simp⟩
    | cons u rest IH =>
      intro acc
      simp only [List.foldl_cons]
      constructor
      · exact le_trans (le_max_left acc u.magSq) (IH (max acc u.magSq)).1
      · intro w hw
        rcases List.mem_cons.mp hw with rfl | hw2
        · exact le_trans (le_max_right acc w.magSq) (IH (max acc w.magSq)).1
        · exact (IH (max acc u.magSq)).2 w hw2
  exact (aux l 0).2 s hs

/-! ### Claim theorems -/

/-- Claim C8: parse-then-evaluate computes standard arithmetic with the
documented precedence: `evaluate(parse("x+y"), 2, 3, 0, 0) = 5` and
`evaluate(parse("a*x - b*x*y"), 1, 1, 2, 3) = -1`, for any math-library
instantiation. -/
theorem c8_theorem : ∀ M : JsMath,
    evalStr M "x+y" 2 3 0 0 = .ok (.num 5) ∧
    evalStr M "a*x - b*x*y" 1 1 2 3 = .ok (.num (-1)) :=
  fun _ => ⟨rfl, rfl⟩

/-- Claim C3, counterexample: `evaluate(parse("sqrt(-1)"), 0,0,0,0)` and
`evaluate(parse("1/0"), 0,0,0,0)` do not return a non-finite number — the
evaluator raises the error `Expression did not evaluate to a finite
number` instead of returning a value at all. -/
theorem c3_counterexample :
    evalStr mathLib0 "sqrt(-1)" 0 0 0 0 = .error .nonFinite ∧
    evalStr mathLib0 "1/0" 0 0 0 0 = .error .nonFinite ∧
    ¬ ∃ w : JSVal, evalStr mathLib0 "sqrt(-1)" 0 0 0 0 = .ok w ∧ w.isFinite = false := by
  refine ⟨by decide, by decide, ?_⟩
  rintro ⟨w, hw, -⟩
  rw [show evalStr mathLib0 "sqrt(-1)" 0 0 0 0 = .error .nonFinite from by decide] at hw
  cases hw

/-- Claim C3 (amended): the fixed-point module's evaluator never returns a
non-finite number; arithmetic faults (`sqrt` of a negative number,
division by zero) surface as the thrown error `Expression did not
evaluate to a finite number`, and every value the evaluator does return is
finite. -/
theorem c3_theorem :
    (∀ (M : JsMath) (x y a b : ℚ),
        evalStr M "sqrt(-1)" x y a b = .error .nonFinite ∧
        evalStr M "1/0" x y a b = .error .nonFinite) ∧
    (∀ (M : JsMath) (ts : List Tok) (x y a b : ℚ) (v : JSVal),
        coreEval M ts x y a b = .ok v → v.isFinite = true) := by
  constructor
  · exact fun M x y a b => ⟨rfl, rfl⟩
  · intro M ts x y a b v h
    unfold coreEval at h
    cases hp : parseExpression M true x y a b (4 * ts.length + 4) ts with
    | error e => rw [hp] at h; simp only [bind, Except.bind] at h; cases h
    | ok pr =>
      rw [hp] at h
      simp only [bind, Except.bind] at h
      obtain ⟨pv, rest⟩ := pr
      cases rest with
      | cons t ts2 => simp at h
      | nil =>
        dsimp only at h
        split at h
        · cases h; assumption
        · cases h

/-- Claim C3, witness: a concrete successful evaluation (`1` at the
origin) returns a finite value. -/
theorem c3_witness : JSVal.isFinite (.num 1) = true :=
  c3_theorem.2 mathLib0 [Tok.num 1] 0 0 0 0 (.num 1) (by decide)

/-- Claim C4, counterexample: `"x + "` and `"(x + y"` are not rejected at
parse time — `createEvaluator` succeeds on both, and the errors (`Unknown
token: undefined`, `Mismatched parentheses`) are raised only when the
returned evaluator is called at a point. -/
theorem c4_counterexample :
    createEvaluator "x + " = .ok [.ident "x", .plus] ∧
    evalStr mathLib0 "x + " 0 0 0 0 = .error (.unknownToken "undefined") ∧
    createEvaluator "(x + y" = .ok [.lparen, .ident "x", .plus, .ident "y"] ∧
    evalStr mathLib0 "(x + y" 1 2 0 0 = .error .mismatched := by
  refine ⟨by decide, by decide, by decide, by decide⟩

/-- Claim C4 (amended): the creation step rejects only empty expressions;
unknown identifiers, unmatched parentheses and leftover tokens are
rejected when the evaluator is called, with an error identifying the
offending token: `"x + "` fails with `Unknown token: undefined` and
`"(x + y"` with `Mismatched parentheses`. -/
theorem c4_theorem :
    (∀ (s : String) (e : EvalErr), createEvaluator s = .error e → e = .emptyExpr) ∧
    createEvaluator "" = .error .emptyExpr ∧
    (∀ (M : JsMath) (x y a b : ℚ),
        evalStr M "x + " x y a b = .error (.unknownToken "undefined") ∧
        evalStr M "(x + y" x y a b = .error .mismatched) := by
  refine ⟨?_, by decide, fun M x y a b => ⟨rfl, rfl⟩⟩
  intro s e h
  unfold createEvaluator at h
  by_cases hc : cleanseChars s.toList = []
  · rw [if_pos hc] at h; cases h; rfl
  · rw [if_neg hc] at h; cases h

/-- Claim C4, witness: the creation-stage implication applied to the
concrete input `";;"` (which cleans to the empty expression). -/
theorem c4_witness : EvalErr.emptyExpr = EvalErr.emptyExpr :=
  c4_theorem.1 ";;" .emptyExpr (by decide)

/-- Claim C1, counterexample: for the Jacobian
`[[-1/2, 1/4000000], [-1/4000000, -1/2]]` the discriminant is
`-(1/2000000)²`, giving the complex conjugate pair `-1/2 ± i/4000000`
(imaginary part `2.5e-7 ≠ 0`); the claim's table labels it
`stable spiral`, but the code's complex test `|im| > 1e-6` fails, so the
code returns `stable node`. -/
theorem c1_counterexample :
    computeEigenvalues sqC1 (some jacC1) =
      some (⟨-1/2, 1/4000000⟩, ⟨-1/2, -(1/4000000)⟩) ∧
    classifyFixedPoint (some jacC1) (computeEigenvalues sqC1 (some jacC1)) = "stable node" ∧
    specClassifyC1Claim (some jacC1) (computeEigenvalues sqC1 (some jacC1)) = "stable spiral" := by
  refine ⟨by decide, by decide, by decide⟩

/-- Claim C1 (amended): the classifier computes trace, determinant and
discriminant as claimed and returns exactly the two closed-form
eigenvalues (real when the discriminant is nonnegative, otherwise the
conjugate pair); missing input yields `indeterminate`; and the label is
exactly the claim's table with the complex-pair rows gated by
`|im| > 1e-6` instead of `im ≠ 0` (a conjugate pair with `|im| ≤ 1e-6` is
classified through the real-eigenvalue rows, both real parts being
`trace/2`). -/
theorem c1_theorem (sq : ℚ → ℚ) (J : Jacobian) (j : Option Jacobian)
    (ev : Option (Eigen × Eigen)) :
    (0 ≤ (J.a + J.d) * (J.a + J.d) - 4 * (J.a * J.d - J.b * J.c) →
      computeEigenvalues sq (some J) =
        some (⟨(J.a + J.d + sq ((J.a + J.d) * (J.a + J.d) - 4 * (J.a * J.d - J.b * J.c))) / 2, 0⟩,
          ⟨(J.a + J.d - sq ((J.a + J.d) * (J.a + J.d) - 4 * (J.a * J.d - J.b * J.c))) / 2, 0⟩)) ∧
    ((J.a + J.d) * (J.a + J.d) - 4 * (J.a * J.d - J.b * J.c) < 0 →
      computeEigenvalues sq (some J) =
        some (⟨(J.a + J.d) / 2,
            sq (-((J.a + J.d) * (J.a + J.d) - 4 * (J.a * J.d - J.b * J.c))) / 2⟩,
          ⟨(J.a + J.d) / 2,
            -(sq (-((J.a + J.d) * (J.a + J.d) - 4 * (J.a * J.d - J.b * J.c))) / 2)⟩)) ∧
    computeEigenvalues sq none = none ∧
    classifyFixedPoint j ev = specClassifyC1Amended j ev := by
  refine ⟨?_, ?_, rfl, ?_⟩
  · intro h
    simp only [computeEigenvalues]
    rw [if_pos h]
  · intro h
    simp only [computeEigenvalues]
    rw [if_neg (not_le.mpr h)]
  · cases j with
    | none => rfl
    | some J2 =>
      cases ev with
      | none => rfl
      | some p => rfl

/-- Claim C1, witness: the eigenvalue characterisation applied to the
concrete Jacobians `[[1,0],[0,-1]]` (real pair) and `[[0,1],[-1,0]]`
(conjugate pair), with a square root returning `2` at the evaluated
arguments (`√4 = 2`). -/
theorem c1_witness :
    computeEigenvalues (fun _ => 2) (some ⟨1, 0, 0, -1⟩) = some (⟨1, 0⟩, ⟨-1, 0⟩) ∧
    computeEigenvalues (fun _ => 2) (some ⟨0, 1, -1, 0⟩) = some (⟨0, 1⟩, ⟨0, -1⟩) := by
  constructor
  · have := (c1_theorem (fun _ => 2) ⟨1, 0, 0, -1⟩ none none).1 (by decide)
    rw [this]; decide
  · have := (c1_theorem (fun _ => 2) ⟨0, 1, -1, 0⟩ none none).2.1 (by decide)
    rw [this]; decide

/-- Claim C2: `refineSeed`, called with the locator's tolerance
`tol = clamp(maxMagnitude·1e-4, 1e-6, 1e-2)` (squared embedding), performs
exactly the claim's Newton–Raphson recipe: at most
`MAX_REFINEMENT_STEPS = 12` iterations, acceptance when `|F| < tol`,
failure on an unavailable Jacobian or `|det J| < 1e-10`, Cramer's rule,
step rescale at the `0.25·domainSpan` cap, early failure one domain-span
outside the bounds, and discard after the final iteration. -/
theorem c2_theorem (fx fy : Field) (a b : ℚ) (bounds : Bounds) (h maxMagSq : ℚ)
    (sq : ℚ → ℚ) (seed : ℚ × ℚ) :
    MAX_REFINEMENT_STEPS = 12 ∧
    refineSeed seed fx fy a b bounds h
        (clamp (maxMagSq * (1 / 10 ^ 8)) (1 / 10 ^ 12) (1 / 10 ^ 4)) sq =
      specNewtonC2 fx fy a b bounds h maxMagSq sq MAX_REFINEMENT_STEPS seed.1 seed.2 := by
  refine ⟨rfl, ?_⟩
  have main : ∀ (n : ℕ) (x y : ℚ),
      refineSeedLoop fx fy a b bounds h
          (clamp (maxMagSq * (1 / 10 ^ 8)) (1 / 10 ^ 12) (1 / 10 ^ 4)) sq
          (max (bounds.xMax - bounds.xMin) (bounds.yMax - bounds.yMin))
          (max (bounds.xMax - bounds.xMin) (bounds.yMax - bounds.yMin) * (1 / 4)) n x y =
        specNewtonC2 fx fy a b bounds h maxMagSq sq n x y := by
    intro n
    induction n with
    | zero => intro x y; rfl
    | succ n IH =>
      intro x y
      simp only [refineSeedLoop, specNewtonC2]
      cases fx x y a b <;> cases fy x y a b <;> try rfl
      rename_i fxv fyv
      cases computeJacobian fx fy x y a b h with
      | none => rfl
      | some J =>
        have e1 : -(J.d * fxv - J.b * fyv) / (J.a * J.d - J.b * J.c) =
            (J.b * fyv - J.d * fxv) / (J.a * J.d - J.b * J.c) := by ring
        have e2 : -(-J.c * fxv + J.a * fyv) / (J.a * J.d - J.b * J.c) =
            (J.c * fxv - J.a * fyv) / (J.a * J.d - J.b * J.c) := by ring
        simp only [e1, e2, IH]
  exact main MAX_REFINEMENT_STEPS seed.1 seed.2

/-- Claim C9: in the speed-normalized integrator, a particle with finite
field evaluation `(vx, vy)` moves to
`p + (vx, vy) · (2 / (1 + |F(p)|)) · dt`, and whenever the updated
position leaves the domain rectangle or the particle's age exceeds 300 it
is respawned at the random draw's location inside the domain with age
reset to zero; for unit-interval draws and a nondegenerate domain the
respawn location lies inside the domain. -/
theorem c9_theorem (sq : ℚ → ℚ) (fx fy : Field) (a b dt xMin xMax yMin yMax r1 r2 : ℚ)
    (p : Particle) (vx vy : ℚ)
    (hfx : fx p.x p.y a b = .num vx) (hfy : fy p.x p.y a b = .num vy) :
    updateParticleF sq fx fy a b dt xMin xMax yMin yMax r1 r2 p =
      (if 300 < p.age ∨ p.x + vx * (2 / (1 + sq (vx ^ 2 + vy ^ 2))) * dt < xMin ∨
          p.x + vx * (2 / (1 + sq (vx ^ 2 + vy ^ 2))) * dt > xMax ∨
          p.y + vy * (2 / (1 + sq (vx ^ 2 + vy ^ 2))) * dt < yMin ∨
          p.y + vy * (2 / (1 + sq (vx ^ 2 + vy ^ 2))) * dt > yMax then
        (⟨xMin + r1 * (xMax - xMin), yMin + r2 * (yMax - yMin), 0, 0⟩, true)
      else
        (⟨p.x + vx * (2 / (1 + sq (vx ^ 2 + vy ^ 2))) * dt,
          p.y + vy * (2 / (1 + sq (vx ^ 2 + vy ^ 2))) * dt, p.age + 1, sq (vx ^ 2 + vy ^ 2)⟩,
          true)) ∧
    (0 ≤ r1 → r1 < 1 → 0 ≤ r2 → r2 < 1 → xMin < xMax → yMin < yMax →
      xMin ≤ xMin + r1 * (xMax - xMin) ∧ xMin + r1 * (xMax - xMin) < xMax ∧
      yMin ≤ yMin + r2 * (yMax - yMin) ∧ yMin + r2 * (yMax - yMin) < yMax) := by
  constructor
  · simp only [updateParticleF, hfx, hfy]
  · intro h1 h2 h3 h4 h5 h6
    refine ⟨?_, ?_, ?_, ?_⟩ <;> nlinarith

/-- Claim C9, witness: a particle of age 400 in the field `F(x,y) = (x,y)`
over `[-1,1]²` respawns at the draw `(1/2, 1/2)`, i.e. at the domain
midpoint, with age reset to zero. -/
theorem c9_witness :
    updateParticleF (fun q => q) (fun x _ _ _ => .num x) (fun _ y _ _ => .num y)
        0 0 1 (-1) 1 (-1) 1 (1/2) (1/2) ⟨0, 0, 400, 0⟩ = (⟨0, 0, 0, 0⟩, true) := by
  have h := (c9_theorem (fun q => q) (fun x _ _ _ => .num x) (fun _ y _ _ => .num y)
    0 0 1 (-1) 1 (-1) 1 (1/2) (1/2) ⟨0, 0, 400, 0⟩ 0 0 rfl rfl).1
  rw [h]
  norm_num

/-- Claim C10: the rendering-layer evaluator is total and always returns a
finite number (errors and non-finite results become `0`); consequently the
non-finite guard in the particle update never takes the unchanged-particle
branch, and `updateParticles` reports successful evaluation whenever at
least one particle exists. -/
theorem c10_theorem (M : JsMath) (dxs dys : String) (sq : ℚ → ℚ)
    (a b dt xMin xMax yMin yMax : ℚ) :
    (∀ (s : String) (x y a2 b2 : ℚ), (vfvEval M s x y a2 b2).isFinite = true) ∧
    (∀ (p : Particle) (r1 r2 : ℚ),
        (updateParticleF sq (vfvField M dxs) (vfvField M dys) a b dt xMin xMax yMin yMax
            r1 r2 p).2 = true) ∧
    (∀ prs : List (Particle × (ℚ × ℚ)), prs ≠ [] →
        (updateParticles sq (vfvField M dxs) (vfvField M dys) a b dt xMin xMax yMin yMax
            prs).2 = true) ∧
    (∀ x y a2 b2 : ℚ, vfvEval M "sqrt(-1)" x y a2 b2 = .num 0 ∧
        vfvEval M "1/0" x y a2 b2 = .num 0 ∧ vfvEval M "x + (" x y a2 b2 = .num 0) := by
  have hfin : ∀ (s : String) (x y a2 b2 : ℚ), (vfvEval M s x y a2 b2).isFinite = true := by
    intro s x y a2 b2
    simp only [vfvEval]
    by_cases hc : cleanseChars s.toList = []
    · rw [if_pos hc]; rfl
    · rw [if_neg hc]
      cases hp : parseExpression M false x y a2 b2
          (4 * (tokenizeF (cleanseChars s.toList).length.succ (cleanseChars s.toList)).length + 4)
          (tokenizeF (cleanseChars s.toList).length.succ (cleanseChars s.toList)) with
      | error e => rfl
      | ok pr =>
        obtain ⟨v, rest⟩ := pr
        dsimp only
        by_cases hf : v.isFinite = true
        · rw [if_pos hf]; exact hf
        · rw [if_neg hf]; rfl
  have hex : ∀ v : JSVal, v.isFinite = true → ∃ q, v = .num q := by
    intro v hv
    cases v with
    | num q => exact ⟨q, rfl⟩
    | posInf => cases hv
    | negInf => cases hv
    | nan => cases hv
  have hone : ∀ (p : Particle) (r1 r2 : ℚ),
      (updateParticleF sq (vfvField M dxs) (vfvField M dys) a b dt xMin xMax yMin yMax
          r1 r2 p).2 = true := by
    intro p r1 r2
    obtain ⟨q1, hq1⟩ := hex _ (hfin dxs p.x p.y a b)
    obtain ⟨q2, hq2⟩ := hex _ (hfin dys p.x p.y a b)
    simp only [updateParticleF, vfvField, hq1, hq2]
    split <;> rfl
  refine ⟨hfin, hone, ?_, fun x y a2 b2 => ⟨rfl, rfl, rfl⟩⟩
  have haux : ∀ (l : List (Particle × (ℚ × ℚ))) (acc : List Particle × Bool),
      acc.2 = true →
      (l.foldl (fun acc pr =>
        let st := updateParticleF sq (vfvField M dxs) (vfvField M dys) a b dt
          xMin xMax yMin yMax pr.2.1 pr.2.2 pr.1
        (acc.1 ++ [st.1], acc.2 || st.2)) acc).2 = true := by
    intro l
    induction l with
    | nil => intro acc h; exact h
    | cons pr t IH =>
      intro acc h
      simp only [List.foldl_cons]
      exact IH _ (by simp [h])
  intro prs hne
  cases prs with
  | nil => exact absurd rfl hne
  | cons pr rest =>
    simp only [updateParticles, List.foldl_cons]
    exact haux rest _ (by simp [hone pr.1 pr.2.1 pr.2.2])

/-- Claim C10, witness: a one-particle buffer under the fields `"x"`,
`"y"` reports successful evaluation. -/
theorem c10_witness :
    ([(⟨0, 0, 0, 0⟩, (0, 0))] : List (Particle × (ℚ × ℚ))) ≠ [] ∧
    (updateParticles (fun q => q) (vfvField mathLib0 "x") (vfvField mathLib0 "y")
        0 0 1 (-1) 1 (-1) 1 [(⟨0, 0, 0, 0⟩, (0, 0))]).2 = true :=
  ⟨by simp, (c10_theorem mathLib0 "x" "y" (fun q => q) 0 0 1 (-1) 1 (-1) 1).2.2.1 _ (by simp)⟩

/-- Claim C6: every reported fixed point lies inside the closed domain
rectangle, and any two distinct reported points are strictly farther apart
than the merge tolerance `max(1e-4, domainSpan·0.01)` in Euclidean
distance (stated on squared distances, exactly equivalent since the
tolerance is positive): a refined point within the tolerance of an
already-accepted point is never added. -/
theorem c6_theorem (sq : ℚ → ℚ) (fx fy : Field) (xMin xMax yMin yMax a b : ℚ) :
    (computeFixedPoints sq fx fy xMin xMax yMin yMax a b).points.Forall
      (fun p => xMin ≤ p.x ∧ p.x ≤ xMax ∧ yMin ≤ p.y ∧ p.y ≤ yMax) ∧
    (computeFixedPoints sq fx fy xMin xMax yMin yMax a b).points.Pairwise
      (fun p q => max (1 / 10 ^ 8) ((max (xMax - xMin) (yMax - yMin)) ^ 2 * (1 / 10 ^ 4)) <
        (p.x - q.x) ^ 2 + (p.y - q.y) ^ 2) := by
  have fold_inv : ∀ (bounds : Bounds) (h tolSq mergeTolSq : ℚ) (cands : List Seed)
      (acc : List FixedPoint),
      (∀ p ∈ acc, bounds.xMin ≤ p.x ∧ p.x ≤ bounds.xMax ∧ bounds.yMin ≤ p.y ∧
        p.y ≤ bounds.yMax) →
      acc.Pairwise (fun p q => mergeTolSq < (p.x - q.x) ^ 2 + (p.y - q.y) ^ 2) →
      (∀ p ∈ refineFold sq fx fy a b bounds h tolSq mergeTolSq cands acc,
          bounds.xMin ≤ p.x ∧ p.x ≤ bounds.xMax ∧ bounds.yMin ≤ p.y ∧ p.y ≤ bounds.yMax) ∧
      (refineFold sq fx fy a b bounds h tolSq mergeTolSq cands acc).Pairwise
        (fun p q => mergeTolSq < (p.x - q.x) ^ 2 + (p.y - q.y) ^ 2) := by
    intro bounds h tolSq mergeTolSq cands
    induction cands with
    | nil => intro acc h1 h2; exact ⟨h1, h2⟩
    | cons seed rest IH =>
      intro acc h1 h2
      simp only [refineFold]
      cases refineSeed (seed.x, seed.y) fx fy a b bounds h tolSq sq with
      | none => exact IH acc h1 h2
      | some r =>
        dsimp only
        by_cases hout : r.1 < bounds.xMin ∨ r.1 > bounds.xMax ∨ r.2 < bounds.yMin ∨
            r.2 > bounds.yMax
        · rw [if_pos hout]; exact IH acc h1 h2
        · rw [if_neg hout]
          by_cases hnear :
              (acc.any fun p => (p.x - r.1) ^ 2 + (p.y - r.2) ^ 2 ≤ mergeTolSq) = true
          · rw [if_pos hnear]; exact IH acc h1 h2
          · rw [if_neg hnear]
            push_neg at hout
            obtain ⟨ho1, ho2, ho3, ho4⟩ := hout
            have hfar : ∀ p ∈ acc, mergeTolSq < (p.x - r.1) ^ 2 + (p.y - r.2) ^ 2 := by
              intro p hp
              by_contra hle
              apply hnear
              rw [List.any_eq_true]
              exact ⟨p, hp, by simpa using not_lt.mp hle⟩
            apply IH
            · intro p hp
              rcases List.mem_append.mp hp with hp1 | hp2
              · exact h1 p hp1
              · rcases List.mem_singleton.mp hp2 with rfl
                exact ⟨ho1, ho2, ho3, ho4⟩
            · rw [List.pairwise_append]
              refine ⟨h2, List.pairwise_singleton _ _, ?_⟩
              intro p hp q hq
              rcases List.mem_singleton.mp hq with rfl
              exact hfar p hp
  constructor <;>
  · simp only [computeFixedPoints]
    by_cases hb : ¬0 < xMax - xMin ∨ ¬0 < yMax - yMin
    · rw [if_pos hb]; simp
    · rw [if_neg hb]
      by_cases hm : maxMagSqOf (gridSeeds fx fy xMin yMin (xMax - xMin) (yMax - yMin) a b) <
          1 / 10 ^ 16
      · rw [if_pos hm]; simp
      · rw [if_neg hm]
        by_cases hcand : candidatesOf (gridSeeds fx fy xMin yMin (xMax - xMin) (yMax - yMin) a b)
            (maxMagSqOf (gridSeeds fx fy xMin yMin (xMax - xMin) (yMax - yMin) a b)) = []
        · rw [if_pos hcand]; simp
        · rw [if_neg hcand]
          have hinv := fold_inv ⟨xMin, xMax, yMin, yMax⟩
            (max (1 / 10 ^ 4) (max (xMax - xMin) (yMax - yMin) * (1 / 10 ^ 4)))
            (clamp (maxMagSqOf (gridSeeds fx fy xMin yMin (xMax - xMin) (yMax - yMin) a b) *
              (1 / 10 ^ 8)) (1 / 10 ^ 12) (1 / 10 ^ 4))
            (max (1 / 10 ^ 8) ((max (xMax - xMin) (yMax - yMin)) ^ 2 * (1 / 10 ^ 4)))
            (candidatesOf (gridSeeds fx fy xMin yMin (xMax - xMin) (yMax - yMin) a b)
              (maxMagSqOf (gridSeeds fx fy xMin yMin (xMax - xMin) (yMax - yMin) a b)))
            [] (by simp) List.Pairwise.nil
          first
          | exact List.forall_iff_forall_mem.mpr hinv.1
          | exact hinv.2

/-- Claim C7 (code bug): the near-zero path can crash instead of
returning the diagnostic.  Only evaluator creation is inside `try/catch`;
the closures throw on any non-finite result, so the locator's own
non-finite skip guard in the grid loop is dead code and a throw escapes
`computeFixedPoints`.  For `dx = "0*(1/(x+5))"`, `dy = "0"` on `[-5,5]²`
every grid sample that evaluates is exactly zero (far below the `1e-8`
cutoff, as the sampled values here show), yet the locator propagates
`Expression did not evaluate to a finite number`, thrown at the first
grid node `x = -5` where `0*(1/0) = 0·Infinity = NaN`, instead of
returning the near-zero note.  The claim's invalid-bounds conjunct does
hold on the same exception-faithful model. -/
theorem c7_theorem :
    computeFixedPointsStr mathLib0 (fun q => q) "0*(1/(x+5))" "0" (-5) 5 (-5) 5 0 0 =
      .error .nonFinite ∧
    evalStr mathLib0 "0*(1/(x+5))" (-5) (-5) 0 0 = .error .nonFinite ∧
    evalStr mathLib0 "0*(1/(x+5))" (-5 + 10/24) (-5) 0 0 = .ok (.num 0) ∧
    evalStr mathLib0 "0*(1/(x+5))" 0 0 0 0 = .ok (.num 0) ∧
    evalStr mathLib0 "0*(1/(x+5))" 5 5 0 0 = .ok (.num 0) ∧
    evalStr mathLib0 "0" (-5) (-5) 0 0 = .ok (.num 0) ∧
    computeFixedPointsStr mathLib0 (fun q => q) "x" "y" 0 0 (-5) 5 0 0 =
      .ok ⟨[], some "Invalid bounds.", none, none, none⟩ := by
  refine ⟨by decide, by decide, by decide, by decide, by decide, by decide, by decide⟩

/-- Claim C5: for a valid domain with maximum grid-sample magnitude at
least `1e-8`, the locator samples the 25×25 grid spanning the domain
inclusive of its edges (skipping non-finite nodes), keeps exactly the
nodes with magnitude at most `max(1e-3, maxMagnitude·0.02)` (squared
embedding), sorts them ascending by magnitude, caps them at
`MAX_SEEDS = 200`, and builds its result by refining exactly the capped
candidate list. -/
theorem c5_theorem (sq : ℚ → ℚ) (fx fy : Field) (xMin xMax yMin yMax a b : ℚ)
    (hx : 0 < xMax - xMin) (hy : 0 < yMax - yMin)
    (hmag : 1 / 10 ^ 16 ≤
      maxMagSqOf (gridSeeds fx fy xMin yMin (xMax - xMin) (yMax - yMin) a b)) :
    let seeds := gridSeeds fx fy xMin yMin (xMax - xMin) (yMax - yMin) a b
    let maxM := maxMagSqOf seeds
    let thrSq := max (1 / 1000000) (maxM * (1 / 2500))
    let cands := candidatesOf seeds maxM
    seeds = specGridC5 fx fy xMin xMax yMin yMax a b ∧
    cands = ((seeds.filter fun s => s.magSq ≤ thrSq).mergeSort
        fun s t => s.magSq ≤ t.magSq).take MAX_SEEDS ∧
    cands.length ≤ MAX_SEEDS ∧
    List.Pairwise (fun s t => s.magSq ≤ t.magSq) cands ∧
    (∀ s ∈ cands, s ∈ seeds ∧ s.magSq ≤ thrSq) ∧
    ((seeds.filter fun s => s.magSq ≤ thrSq).length ≤ MAX_SEEDS →
      cands.Perm (seeds.filter fun s => s.magSq ≤ thrSq)) ∧
    computeFixedPoints sq fx fy xMin xMax yMin yMax a b =
      (if cands = [] then
        ⟨[], none, some "No candidate fixed points found in the current bounds.", none, none⟩
      else
        ⟨refineFold sq fx fy a b ⟨xMin, xMax, yMin, yMax⟩
            (max (1 / 10 ^ 4) (max (xMax - xMin) (yMax - yMin) * (1 / 10 ^ 4)))
            (clamp (maxM * (1 / 10 ^ 8)) (1 / 10 ^ 12) (1 / 10 ^ 4))
            (max (1 / 10 ^ 8) ((max (xMax - xMin) (yMax - yMin)) ^ 2 * (1 / 10 ^ 4))) cands [],
          none,
          if refineFold sq fx fy a b ⟨xMin, xMax, yMin, yMax⟩
              (max (1 / 10 ^ 4) (max (xMax - xMin) (yMax - yMin) * (1 / 10 ^ 4)))
              (clamp (maxM * (1 / 10 ^ 8)) (1 / 10 ^ 12) (1 / 10 ^ 4))
              (max (1 / 10 ^ 8) ((max (xMax - xMin) (yMax - yMin)) ^ 2 * (1 / 10 ^ 4)))
              cands [] = [] then
            some "No fixed points found in the current bounds."
          else none,
          some GRID_SIZE, some cands.length⟩) ∧
    (xMin + (0 : ℚ) * (xMax - xMin) / 24 = xMin ∧
      xMin + (24 : ℚ) * (xMax - xMin) / 24 = xMax ∧
      yMin + (0 : ℚ) * (yMax - yMin) / 24 = yMin ∧
      yMin + (24 : ℚ) * (yMax - yMin) / 24 = yMax) := by
  intro seeds maxM thrSq cands
  have hgrid : seeds = specGridC5 fx fy xMin xMax yMin yMax a b := by
    simp only [seeds, gridSeeds, specGridC5]
    congr 1
    funext i
    congr 1
    funext j
    have e1 : xMin + (i : ℚ) / ((GRID_SIZE : ℚ) - 1) * (xMax - xMin) =
        xMin + (i : ℚ) * (xMax - xMin) / 24 := by
      norm_num [GRID_SIZE]; ring
    have e2 : yMin + (j : ℚ) / ((GRID_SIZE : ℚ) - 1) * (yMax - yMin) =
        yMin + (j : ℚ) * (yMax - yMin) / 24 := by
      norm_num [GRID_SIZE]; ring
    rw [e1, e2]
  have htrans : ∀ s t u : Seed, (decide (s.magSq ≤ t.magSq)) = true →
      (decide (t.magSq ≤ u.magSq)) = true → (decide (s.magSq ≤ u.magSq)) = true := by
    intro s t u h1 h2
    simp only [decide_eq_true_eq] at h1 h2 ⊢
    exact le_trans h1 h2
  have htot : ∀ s t : Seed,
      ((decide (s.magSq ≤ t.magSq)) || (decide (t.magSq ≤ s.magSq))) = true := by
    intro s t
    simp only [Bool.or_eq_true, decide_eq_true_eq]
    exact le_total s.magSq t.magSq
  refine ⟨hgrid, rfl, ?_, ?_, ?_, ?_, ?_, by ring, by ring, by ring, by ring⟩
  · simp only [cands, candidatesOf, List.length_take]
    exact min_le_left _ _
  · have hs := List.sorted_mergeSort htrans htot (seeds.filter fun s => s.magSq ≤ thrSq)
    have hsub := List.Pairwise.sublist (List.take_sublist MAX_SEEDS _) hs
    exact hsub.imp (by intro s t hst; simpa using hst)
  · intro s hs
    have h1 : s ∈ (seeds.filter fun s => s.magSq ≤ thrSq).mergeSort
        (fun s t => s.magSq ≤ t.magSq) :=
      (List.take_sublist _ _).subset hs
    have h2 : s ∈ seeds.filter fun s => s.magSq ≤ thrSq :=
      (List.mergeSort_perm _ _).subset h1
    have h3 := List.mem_filter.mp h2
    exact ⟨h3.1, by simpa using h3.2⟩
  · intro hlen
    have hlen2 : ((seeds.filter fun s => s.magSq ≤ thrSq).mergeSort
        (fun s t => s.magSq ≤ t.magSq)).length ≤ MAX_SEEDS := by
      rw [(List.mergeSort_perm _ _).length_eq]
      exact hlen
    have heq : cands = (seeds.filter fun s => s.magSq ≤ thrSq).mergeSort
        (fun s t => s.magSq ≤ t.magSq) := List.take_of_length_le hlen2
    rw [heq]
    exact List.mergeSort_perm _ _
  · simp only [computeFixedPoints]
    rw [if_neg (by push_neg; exact ⟨hx, hy⟩), if_neg (not_lt.mpr hmag)]

/-- Claim C5, witness: the constant field `F = (3,4)` over `[0,1]²` has
maximum grid magnitude `5` (squared `25`), well above `1e-8`, and the
candidate list respects the `MAX_SEEDS` cap. -/
theorem c5_witness :
    (0:ℚ) < 1 - 0 ∧
    1 / 10 ^ 16 ≤ maxMagSqOf (gridSeeds (fun _ _ _ _ => JSVal.num 3)
      (fun _ _ _ _ => JSVal.num 4) 0 0 (1 - 0) (1 - 0) 0 0) ∧
    (candidatesOf (gridSeeds (fun _ _ _ _ => JSVal.num 3) (fun _ _ _ _ => JSVal.num 4)
        0 0 (1 - 0) (1 - 0) 0 0)
      (maxMagSqOf (gridSeeds (fun _ _ _ _ => JSVal.num 3) (fun _ _ _ _ => JSVal.num 4)
        0 0 (1 - 0) (1 - 0) 0 0))).length ≤ MAX_SEEDS := by
  have hmem : (⟨0 + ((0 : ℕ) : ℚ) / ((GRID_SIZE : ℚ) - 1) * (1 - 0),
      0 + ((0 : ℕ) : ℚ) / ((GRID_SIZE : ℚ) - 1) * (1 - 0), 3 ^ 2 + 4 ^ 2⟩ : Seed) ∈
      gridSeeds (fun _ _ _ _ => JSVal.num 3) (fun _ _ _ _ => JSVal.num 4)
        0 0 (1 - 0) (1 - 0) 0 0 :=
    List.mem_flatMap.mpr ⟨0, List.mem_range.mpr (show 0 < GRID_SIZE by norm_num [GRID_SIZE]),
      List.mem_filterMap.mpr
        ⟨0, List.mem_range.mpr (show 0 < GRID_SIZE by norm_num [GRID_SIZE]), rfl⟩⟩
  have h25 := le_maxMagSqOf hmem
  have hmag : 1 / 10 ^ 16 ≤ maxMagSqOf (gridSeeds (fun _ _ _ _ => JSVal.num 3)
      (fun _ _ _ _ => JSVal.num 4) 0 0 (1 - 0) (1 - 0) 0 0) :=
    le_trans (by norm_num) h25
  have h := c5_theorem (fun q => q) (fun _ _ _ _ => JSVal.num 3) (fun _ _ _ _ => JSVal.num 4)
    0 1 0 1 0 0 (by norm_num) (by norm_num) hmag
  exact ⟨by norm_num, hmag, h.2.2.1⟩

end VectorFields
